import Mathlib

/-!
Verification of the image-augmentation transforms of `cnocr/data_utils/transforms.py`
and the CLI entry points of `cnocr/cli.py`, against the repository specification.

Modelling conventions (shallow embedding):
* A numpy image array is a triple of dimensions plus a total pixel lookup
  function (`Arr3`); dimension 0 is rows (height), dimension 1 is columns
  (width) and dimension 2 is channels, matching the `[H, W, C]` layout the
  augmentation pipeline works in.  Pixel sample values are rationals, covering
  both the raw `uint8` range and normalized floating-point values exactly.
* The two process-wide random sources of the Python code (the `random` module
  used by `random.random` / `random.randint`, and the NumPy global generator
  used by `np.random.randint`) are modelled as two explicit draw streams with
  positions, threaded through every sampling call (`RandState`).
* Fallible OpenCV calls (`cv2.cvtColor` on an unsupported channel count,
  `cv2.rectangle` on more than four channels, `np.random.randint` on an empty
  range) are modelled in `Option`, with `none` for a raised exception.
* Third-party albumentations transforms that the spec delegates to the
  library are modelled with their parameter sampling made explicit (the spec
  fixes only parameter ranges and apply-probabilities); their pixel-level
  behaviour is a concrete deterministic function of the sampled parameters.
-/

/-- Numeric dtype tag of an array, as far as the pipeline distinguishes it. -/
inductive DType where
  | uint8 : DType
  | float32 : DType
deriving DecidableEq

/-- Model of a three-dimensional numpy array: explicit dimensions and a total
pixel lookup function.  For an image in `[H, W, C]` layout, `d0` is the
height, `d1` the width and `d2` the channel count. -/
structure Arr3 where
  dtype : DType
  d0 : Nat
  d1 : Nat
  d2 : Nat
  at3 : Nat → Nat → Nat → ℚ

/-- The process-wide random state: a stream of uniform draws in `[0, 1)`
backing Python's `random` module, and a stream of naturals backing the NumPy
global generator, each with a current position. -/
structure RandState where
  py : Nat → ℚ
  pyPos : Nat
  npr : Nat → Nat
  npPos : Nat

/-- Model of `random.random()`: next uniform draw from the `random`-module
stream. -/
def pyUniform (st : RandState) : ℚ × RandState :=
  (st.py st.pyPos, { st with pyPos := st.pyPos + 1 })

/-- Model of `random.randint(lo, hi)` (both bounds inclusive): maps the next
uniform draw into `[lo, hi]`; the clamp mirrors the fact that the real call
always returns a value in that interval. -/
def pyRandint (lo hi : Nat) (st : RandState) : Nat × RandState :=
  (lo + min (hi - lo) (Int.toNat ⌊(pyUniform st).1 * ((hi : ℚ) - (lo : ℚ) + 1)⌋),
   (pyUniform st).2)

/-- Model of `np.random.randint(lo, hi)` (exclusive upper bound): raises on an
empty range, which is the `none` case here. -/
def npRandint (lo hi : Nat) (st : RandState) : Option (Nat × RandState) :=
  if hi ≤ lo then none
  else some (lo + st.npr st.npPos % (hi - lo), { st with npPos := st.npPos + 1 })

/-- Advance the NumPy stream position by `n` draws. -/
def npAdvance (n : Nat) (st : RandState) : RandState :=
  { st with npPos := st.npPos + n }

/-- Fixed luma weighting of `cv2.cvtColor(img, cv2.COLOR_RGB2GRAY)` on one
pixel: `0.299 R + 0.587 G + 0.114 B`. -/
def rgb2grayPixel (r g b : ℚ) : ℚ :=
  (299 * r + 587 * g + 114 * b) / 1000

/-- Model of `ToSingleChannelGray.apply`: if the channel count is not 1,
convert to grayscale with `cv2.cvtColor(..., COLOR_RGB2GRAY)` (which accepts
only 3- or 4-channel inputs and ignores the alpha channel) and re-attach a
trailing channel dimension of size 1; a single-channel image passes through
unchanged. -/
def ToSingleChannelGray.apply (img : Arr3) : Option Arr3 :=
  if img.d2 = 1 then some img
  else if img.d2 = 3 ∨ img.d2 = 4 then
    some ⟨img.dtype, img.d0, img.d1, 1,
      fun i j _ => rgb2grayPixel (img.at3 i j 0) (img.at3 i j 1) (img.at3 i j 2)⟩
  else none

/-- Modelled from the spec: `normalize_img_array` is imported from
`cnocr.utils`, which is not included under `src/`.  Per the spec the
normalizer deterministically scales raw sample values into the model's
expected input range and produces a floating-point array; it is modelled as
division of the raw `[0, 255]` range by 255, giving values in `[0, 1]`. -/
def normalize_img_array (img : Arr3) : Arr3 :=
  ⟨DType.float32, img.d0, img.d1, img.d2, fun i j k => img.at3 i j k / 255⟩

/-- Model of `CustomNormalize.apply`: delegates to `normalize_img_array`. -/
def CustomNormalize.apply (img : Arr3) : Arr3 :=
  normalize_img_array img

/-- Model of `numpy.transpose` with axes `(1, 2, 0)`: `[C, H, W]` to
`[H, W, C]`. -/
def transpose_120 (a : Arr3) : Arr3 :=
  ⟨a.dtype, a.d1, a.d2, a.d0, fun i j k => a.at3 k i j⟩

/-- Model of `numpy.transpose` with axes `(2, 0, 1)`: `[H, W, C]` to
`[C, H, W]`. -/
def transpose_201 (a : Arr3) : Arr3 :=
  ⟨a.dtype, a.d2, a.d0, a.d1, fun k i j => a.at3 i j k⟩

/-- Model of `transform_wrap` applied to a transform whose random draws have
already been resolved to a pure function on channel-last arrays: convert the
channel-first tensor to a channel-last numpy array (`image.numpy()` followed
by `transpose((1, 2, 0))`, both dtype-preserving), run the transform, and
convert back (`transpose((2, 0, 1))` followed by `torch.from_numpy`, both
dtype-preserving). -/
def transform_wrap (t : Arr3 → Arr3) (image : Arr3) : Arr3 :=
  transpose_201 (t (transpose_120 image))

/-- C5: for every channel-first image tensor, the axis-convention adapter
wrapping the identity transform returns an array equal to its input: same
values, same channel-first shape, and the same numeric dtype (the round trip
through channel-last and back is the identity). -/
theorem transform_wrap_identity_roundtrip (image : Arr3) :
    transform_wrap (fun a => a) image = image := rfl

/-- C6: applying the channel reducer twice yields the same result as applying
it once (composition in the error monad of a possibly-raising OpenCV call),
and a single-channel input passes through unchanged. -/
theorem to_single_channel_gray_idempotent (img : Arr3) :
    (ToSingleChannelGray.apply img).bind ToSingleChannelGray.apply
      = ToSingleChannelGray.apply img
    ∧ (img.d2 = 1 → ToSingleChannelGray.apply img = some img) := by
  constructor
  · by_cases h1 : img.d2 = 1
    · simp [ToSingleChannelGray.apply, h1]
    · by_cases h34 : img.d2 = 3 ∨ img.d2 = 4
      · simp [ToSingleChannelGray.apply, h1, h34]
      · simp [ToSingleChannelGray.apply, h1, h34]
  · intro h1
    simp [ToSingleChannelGray.apply, h1]

/-- A concrete 2×2 single-channel image. -/
def grayPassImg : Arr3 :=
  ⟨DType.uint8, 2, 2, 1, fun _ _ _ => 17⟩

/-- A concrete 2×2 RGB image. -/
def grayIdemImg : Arr3 :=
  ⟨DType.uint8, 2, 2, 3, fun i j k => (i : ℚ) + j + k⟩

/-- Witness for C6 at concrete inputs: the single-channel pass-through on a
2×2×1 image, and idempotence on a 2×2×3 image. -/
theorem to_single_channel_gray_idempotent_witness :
    ToSingleChannelGray.apply grayPassImg = some grayPassImg
    ∧ (ToSingleChannelGray.apply grayIdemImg).bind ToSingleChannelGray.apply
        = ToSingleChannelGray.apply grayIdemImg :=
  ⟨(to_single_channel_gray_idempotent grayPassImg).2 rfl,
   (to_single_channel_gray_idempotent grayIdemImg).1⟩

/-- Model of `cv2.resize(src, dsize)` with nearest-neighbour sampling.  Per
the OpenCV API, `dsize` is `(width, height)`: the output has `dsize.2` rows
and `dsize.1` columns. -/
def cv2_resize (img : Arr3) (dsize : Nat × Nat) : Arr3 :=
  ⟨img.dtype, dsize.2, dsize.1, img.d2,
   fun i j k => img.at3 (i * img.d0 / dsize.2) (j * img.d1 / dsize.1) k⟩

/-- Model of the numpy slice `img[top:top+h, left:left+w]`. -/
def arraySlice2 (img : Arr3) (top left h w : Nat) : Arr3 :=
  ⟨img.dtype, h, w, img.d2, fun i j k => img.at3 (top + i) (left + j) k⟩

/-- Model of `CustomRandomCrop.cal_params`: the rejection-resampling loop.
Each iteration draws `h_top`, `h_bot` with `random.randint(0, crop_size[0])`
and `w_left`, `w_right` with `random.randint(0, crop_size[1])`, rejects and
resamples when the remaining height or width falls below half the original
dimension, and otherwise returns `(h_top, w_left, h, w)`.  The source loop is
`while True` with no retry cap; the explicit `fuel` argument counts the
iterations a run is allowed, with `none` meaning the loop has not returned
within that many iterations. -/
def CustomRandomCrop.cal_params (cropSize : Nat × Nat) (oriH oriW : Nat) :
    Nat → RandState → Option ((Nat × Nat × Int × Int) × RandState)
  | 0, _ => none
  | n + 1, st =>
    let r1 := pyRandint 0 cropSize.1 st
    let r2 := pyRandint 0 cropSize.1 r1.2
    let r3 := pyRandint 0 cropSize.2 r2.2
    let r4 := pyRandint 0 cropSize.2 r3.2
    let h : Int := (oriH : Int) - (r1.1 : Int) - (r2.1 : Int)
    let w : Int := (oriW : Int) - (r3.1 : Int) - (r4.1 : Int)
    if ((h : ℚ) < (oriH : ℚ) * (1 / 2) ∨ (w : ℚ) < (oriW : ℚ) * (1 / 2)) then
      CustomRandomCrop.cal_params cropSize oriH oriW n r4.2
    else some ((r1.1, r3.1, h, w), r4.2)

/-- One-step characterization of the rejection loop, with the four draws and
the advanced state written positionally. -/
theorem cal_params_succ_eq (cropSize : Nat × Nat) (oriH oriW n : Nat) (st : RandState) :
    CustomRandomCrop.cal_params cropSize oriH oriW (n + 1) st =
      (if ((((oriH : Int) - ((pyRandint 0 cropSize.1 st).1 : Int)
              - ((pyRandint 0 cropSize.1 { st with pyPos := st.pyPos + 1 }).1 : Int) : Int) : ℚ)
              < (oriH : ℚ) * (1 / 2)
          ∨ ((((oriW : Int) - ((pyRandint 0 cropSize.2 { st with pyPos := st.pyPos + 2 }).1 : Int)
              - ((pyRandint 0 cropSize.2 { st with pyPos := st.pyPos + 3 }).1 : Int) : Int) : ℚ)
              < (oriW : ℚ) * (1 / 2)))
       then CustomRandomCrop.cal_params cropSize oriH oriW n { st with pyPos := st.pyPos + 4 }
       else some
          (((pyRandint 0 cropSize.1 st).1,
            (pyRandint 0 cropSize.2 { st with pyPos := st.pyPos + 2 }).1,
            (oriH : Int) - ((pyRandint 0 cropSize.1 st).1 : Int)
              - ((pyRandint 0 cropSize.1 { st with pyPos := st.pyPos + 1 }).1 : Int),
            (oriW : Int) - ((pyRandint 0 cropSize.2 { st with pyPos := st.pyPos + 2 }).1 : Int)
              - ((pyRandint 0 cropSize.2 { st with pyPos := st.pyPos + 3 }).1 : Int)),
           { st with pyPos := st.pyPos + 4 })) := rfl

/-- Model of `CustomRandomCrop.apply`: sample accepted crop amounts with
`cal_params`, slice the remaining region, and call
`cv2.resize(cropped, img.shape[:2])` — note that the code passes
`img.shape[:2]`, which is `(height, width)`, where OpenCV expects
`dsize = (width, height)`. -/
def CustomRandomCrop.apply (cropSize : Nat × Nat) (img : Arr3) (st : RandState)
    (fuel : Nat) : Option (Arr3 × RandState) :=
  (CustomRandomCrop.cal_params cropSize img.d0 img.d1 fuel st).map fun r =>
    (cv2_resize (arraySlice2 img r.1.1 r.1.2.1 r.1.2.2.1.toNat r.1.2.2.2.toNat)
       (img.d0, img.d1), r.2)

/-- The rejection loop returns after finitely many iterations on random
state `st`. -/
def calParamsTerminates (cropSize : Nat × Nat) (oriH oriW : Nat) (st : RandState) : Prop :=
  ∃ n, (CustomRandomCrop.cal_params cropSize oriH oriW n st).isSome = true

/-- A `random.randint(0, c)` call whose underlying uniform draw is 0 returns
0. -/
theorem pyRandint_zero (c : Nat) (st : RandState) (h : st.py st.pyPos = 0) :
    (pyRandint 0 c st).1 = 0 := by
  simp [pyRandint, pyUniform, h]

/-- A concrete 2×3 single-channel image. -/
def cropImg23 : Arr3 := ⟨DType.uint8, 2, 3, 1, fun _ _ _ => 7⟩

/-- The all-zeros random state. -/
def zeroState : RandState := ⟨fun _ => 0, 0, fun _ => 0, 0⟩

/-- C2: evaluating the edge-crop transform at a failing input.  On a 2×3
image with `crop_size = (0, 0)` every sampled crop amount is 0, so the
accepted crop region is the whole image; the claimed behaviour is an output
of the input shape 2×3, but because `cv2.resize` receives
`img.shape[:2] = (2, 3)` in place of a `(width, height)` pair, the output
has 3 rows and 2 columns. -/
theorem custom_random_crop_transposed_shape :
    (CustomRandomCrop.apply (0, 0) cropImg23 zeroState 1).map (fun r => (r.1.d0, r.1.d1))
        = some (3, 2)
    ∧ cropImg23.d0 = 2 ∧ cropImg23.d1 = 3 := by
  refine ⟨?_, rfl, rfl⟩
  have hz : ∀ st : RandState, (pyRandint 0 0 st).1 = 0 := by
    intro st; simp [pyRandint]
  rw [CustomRandomCrop.apply]
  rw [show cropImg23.d0 = 2 from rfl, show cropImg23.d1 = 3 from rfl]
  rw [cal_params_succ_eq]
  rw [if_neg ?_]
  · rfl
  · rw [hz, hz, hz, hz]
    push_cast
    norm_num

/-- A random state whose `random`-module stream constantly draws 3/4. -/
def badCropState : RandState := ⟨fun _ => 3 / 4, 0, fun _ => 0, 0⟩

/-- On the constant-3/4 stream with `crop_size = (3, 3)` and a 4×4 image,
every iteration of the rejection loop draws crop amounts of 3 from all four
edges, leaving a negative remaining size, so every iteration rejects. -/
theorem cal_params_const34_none :
    ∀ (n pos : Nat) (f : Nat → Nat) (np : Nat),
      CustomRandomCrop.cal_params (3, 3) 4 4 n ⟨fun _ => 3 / 4, pos, f, np⟩ = none := by
  intro n
  induction n with
  | zero => intro pos f np; rfl
  | succ m ih =>
    intro pos f np
    have hdraw : ∀ st : RandState, st.py = (fun _ => (3 : ℚ) / 4) →
        (pyRandint 0 3 st).1 = 3 := by
      intro st h
      rw [pyRandint]
      simp only [pyUniform, h]
      norm_num
    rw [cal_params_succ_eq]
    rw [if_pos ?_]
    · exact ih (pos + 4) f np
    · rw [hdraw _ rfl, hdraw _ rfl]
      left
      push_cast
      norm_num

/-- C7 counterexample: the edge-crop rejection loop does not terminate for
every image and crop bound — on the adversarial constant-3/4 random stream
with `crop_size = (3, 3)` and a 4×4 image, no finite number of iterations
returns. -/
theorem cal_params_divergence : ¬ calParamsTerminates (3, 3) 4 4 badCropState := by
  rintro ⟨n, hn⟩
  rw [show badCropState = ⟨fun _ => 3 / 4, 0, fun _ => 0, 0⟩ from rfl] at hn
  rw [cal_params_const34_none n 0 (fun _ => 0) 0] at hn
  simp at hn

/-- C7 amended: the loop terminates whenever some iteration's four underlying
uniform draws are all 0 (a zero crop from every edge is always accepted); in
particular it terminates on any stream that eventually produces such a block,
but there is no retry cap, so adversarial streams make it loop forever. -/
theorem cal_params_terminates_of_zero_draws (cropSize : Nat × Nat) (oriH oriW : Nat)
    (k : Nat) : ∀ st : RandState,
    (∀ d < 4, st.py (st.pyPos + (4 * k + d)) = 0) →
    calParamsTerminates cropSize oriH oriW st := by
  induction k with
  | zero =>
    intro st hz
    have h0 : st.py st.pyPos = 0 := by simpa using hz 0 (by norm_num)
    have h1 : st.py (st.pyPos + 1) = 0 := by simpa using hz 1 (by norm_num)
    have h2 : st.py (st.pyPos + 2) = 0 := by simpa using hz 2 (by norm_num)
    have h3 : st.py (st.pyPos + 3) = 0 := by simpa using hz 3 (by norm_num)
    refine ⟨1, ?_⟩
    rw [cal_params_succ_eq]
    rw [if_neg ?_]
    · simp
    · rw [pyRandint_zero _ _ h0, pyRandint_zero _ _ h1,
        pyRandint_zero _ _ h2, pyRandint_zero _ _ h3]
      push_cast
      have hH : (0 : ℚ) ≤ (oriH : ℚ) := Nat.cast_nonneg oriH
      have hW : (0 : ℚ) ≤ (oriW : ℚ) := Nat.cast_nonneg oriW
      rintro (h | h) <;> linarith
  | succ k ih =>
    intro st hz
    by_cases hrej : ((((oriH : Int) - ((pyRandint 0 cropSize.1 st).1 : Int)
          - ((pyRandint 0 cropSize.1 { st with pyPos := st.pyPos + 1 }).1 : Int) : Int) : ℚ)
          < (oriH : ℚ) * (1 / 2)
        ∨ ((((oriW : Int) - ((pyRandint 0 cropSize.2 { st with pyPos := st.pyPos + 2 }).1 : Int)
          - ((pyRandint 0 cropSize.2 { st with pyPos := st.pyPos + 3 }).1 : Int) : Int) : ℚ)
          < (oriW : ℚ) * (1 / 2)))
    · have hz' : ∀ d < 4,
          ({ st with pyPos := st.pyPos + 4 } : RandState).py
            (({ st with pyPos := st.pyPos + 4 } : RandState).pyPos + (4 * k + d)) = 0 := by
        intro d hd
        show st.py (st.pyPos + 4 + (4 * k + d)) = 0
        have harith : st.pyPos + 4 + (4 * k + d) = st.pyPos + (4 * (k + 1) + d) := by ring
        rw [harith]
        exact hz d hd
      obtain ⟨n, hn⟩ := ih { st with pyPos := st.pyPos + 4 } hz'
      exact ⟨n + 1, by rw [cal_params_succ_eq, if_pos hrej]; exact hn⟩
    · exact ⟨1, by rw [cal_params_succ_eq, if_neg hrej]; simp⟩

/-- Witness for the amended C7 at a concrete input: on the all-zeros stream
the loop over a 3×4 image with `crop_size = (5, 5)` terminates. -/
theorem cal_params_terminates_witness : calParamsTerminates (5, 5) 3 4 zeroState :=
  cal_params_terminates_of_zero_draws (5, 5) 3 4 0 zeroState (fun _ _ => rfl)

/-- Model of `albumentations.Resize(height, width).apply`: resize to the
given output height and width (the library passes `(width, height)` to
OpenCV correctly), with nearest-neighbour sampling. -/
def alb_resize (height width : Nat) (img : Arr3) : Arr3 :=
  ⟨img.dtype, height, width, img.d2,
   fun i j k => img.at3 (i * img.d0 / height) (j * img.d1 / width) k⟩

/-- Model of `RandomStretchAug.apply`: sample a width ratio uniformly via
`min_ratio + random.random() * (max_ratio - min_ratio)`, truncate
`w * ratio` to an integer with `int(...)`, and resize to the original height
and the new width. -/
def RandomStretchAug.apply (minRatio maxRatio : ℚ) (img : Arr3) (st : RandState) :
    Arr3 × RandState :=
  let u := (pyUniform st).1
  let newWRatio := minRatio + u * (maxRatio - minRatio)
  let newW := Int.toNat ⌊(img.d1 : ℚ) * newWRatio⌋
  (alb_resize img.d0 newW img, (pyUniform st).2)

/-- A concrete 1×3 single-channel image. -/
def stretchImg13 : Arr3 := ⟨DType.uint8, 1, 3, 1, fun _ _ _ => 5⟩

/-- C4 counterexample: with the pipeline's configured ratio range
`[0.5, 1.5]`, a 3-pixel-wide image and a sampled ratio of exactly 0.5, the
output width is `int(3 * 0.5) = 1`, which is strictly below
`min_ratio * width = 1.5` — the claimed inclusive lower bound fails because
of the integer truncation. -/
theorem random_stretch_below_min_ratio :
    (RandomStretchAug.apply (1 / 2) (3 / 2) stretchImg13 zeroState).1.d1 = 1
    ∧ ¬ ((1 / 2 : ℚ) * (stretchImg13.d1 : ℚ)
          ≤ ((RandomStretchAug.apply (1 / 2) (3 / 2) stretchImg13 zeroState).1.d1 : ℚ)) := by
  have h1 : (RandomStretchAug.apply (1 / 2) (3 / 2) stretchImg13 zeroState).1.d1 = 1 := by
    show Int.toNat ⌊((3 : ℕ) : ℚ) * (1 / 2 + zeroState.py zeroState.pyPos * (3 / 2 - 1 / 2))⌋ = 1
    rw [show zeroState.py zeroState.pyPos = 0 from rfl]
    norm_num
  refine ⟨h1, ?_⟩
  rw [h1]
  rw [show stretchImg13.d1 = 3 from rfl]
  norm_num

/-- C4 amended: the output height equals the input height, and the output
width `int(w * ratio)` satisfies `min_ratio * w - 1 < out_w ≤ max_ratio * w`
for the sampled ratio in `[min_ratio, max_ratio)`; the upper bound of the
claim holds, but the lower bound only up to the loss of the integer
truncation. -/
theorem random_stretch_bounds (minRatio maxRatio : ℚ) (img : Arr3) (st : RandState)
    (hmin : 0 ≤ minRatio) (hmm : minRatio ≤ maxRatio)
    (hu0 : 0 ≤ st.py st.pyPos) (hu1 : st.py st.pyPos < 1) :
    (RandomStretchAug.apply minRatio maxRatio img st).1.d0 = img.d0
    ∧ ((RandomStretchAug.apply minRatio maxRatio img st).1.d1 : ℚ)
        ≤ maxRatio * (img.d1 : ℚ)
    ∧ minRatio * (img.d1 : ℚ) - 1
        < ((RandomStretchAug.apply minRatio maxRatio img st).1.d1 : ℚ) := by
  have hu : (pyUniform st).1 = st.py st.pyPos := rfl
  have hwnn : (0 : ℚ) ≤ (img.d1 : ℚ) := Nat.cast_nonneg _
  have hr1 : minRatio ≤ minRatio + st.py st.pyPos * (maxRatio - minRatio) := by nlinarith
  have hr2 : minRatio + st.py st.pyPos * (maxRatio - minRatio) ≤ maxRatio := by nlinarith
  have hd1 : (RandomStretchAug.apply minRatio maxRatio img st).1.d1
      = Int.toNat ⌊(img.d1 : ℚ) * (minRatio + st.py st.pyPos * (maxRatio - minRatio))⌋ := rfl
  have hx0 : 0 ≤ (img.d1 : ℚ) * (minRatio + st.py st.pyPos * (maxRatio - minRatio)) :=
    mul_nonneg hwnn (le_trans hmin hr1)
  have hfl0 : 0 ≤ ⌊(img.d1 : ℚ) * (minRatio + st.py st.pyPos * (maxRatio - minRatio))⌋ :=
    Int.floor_nonneg.mpr hx0
  have hcast : (((⌊(img.d1 : ℚ) * (minRatio + st.py st.pyPos * (maxRatio - minRatio))⌋).toNat : ℕ) : ℚ)
      = ((⌊(img.d1 : ℚ) * (minRatio + st.py st.pyPos * (maxRatio - minRatio))⌋ : ℤ) : ℚ) := by
    exact_mod_cast Int.toNat_of_nonneg hfl0
  refine ⟨rfl, ?_, ?_⟩
  · rw [hd1, hcast]
    have hfloor := Int.floor_le ((img.d1 : ℚ) * (minRatio + st.py st.pyPos * (maxRatio - minRatio)))
    have hle : (img.d1 : ℚ) * (minRatio + st.py st.pyPos * (maxRatio - minRatio))
        ≤ maxRatio * (img.d1 : ℚ) := by nlinarith
    linarith
  · rw [hd1, hcast]
    have hfloor := Int.sub_one_lt_floor
      ((img.d1 : ℚ) * (minRatio + st.py st.pyPos * (maxRatio - minRatio)))
    have hle : minRatio * (img.d1 : ℚ)
        ≤ (img.d1 : ℚ) * (minRatio + st.py st.pyPos * (maxRatio - minRatio)) := by nlinarith
    linarith

/-- Witness for the amended C4 at a concrete input: the configured ratio
range `[0.5, 1.5]` on a 1×3 image with a zero draw. -/
theorem random_stretch_bounds_witness :
    (RandomStretchAug.apply (1 / 2) (3 / 2) stretchImg13 zeroState).1.d0 = stretchImg13.d0
    ∧ ((RandomStretchAug.apply (1 / 2) (3 / 2) stretchImg13 zeroState).1.d1 : ℚ)
        ≤ (3 / 2) * (stretchImg13.d1 : ℚ)
    ∧ (1 / 2) * (stretchImg13.d1 : ℚ) - 1
        < ((RandomStretchAug.apply (1 / 2) (3 / 2) stretchImg13 zeroState).1.d1 : ℚ) :=
  random_stretch_bounds (1 / 2) (3 / 2) stretchImg13 zeroState (by norm_num) (by norm_num)
    (by norm_num [zeroState]) (by norm_num [zeroState])

/-- Model of `cv2.cvtColor(img, cv2.COLOR_BGR2BGRA)`: accepts only a
3-channel input (OpenCV raises `Invalid number of channels` otherwise) and
appends an opaque alpha channel of 255. -/
def cvtColor_BGR2BGRA (img : Arr3) : Option Arr3 :=
  if img.d2 = 3 then
    some ⟨img.dtype, img.d0, img.d1, 4,
      fun i j k => if k = 3 then 255 else img.at3 i j k⟩
  else none

/-- Model of `cv2.cvtColor(img, cv2.COLOR_BGRA2BGR)`: drop the alpha channel
(the code only reaches this call on a 4-channel image). -/
def cvtColor_BGRA2BGR (img : Arr3) : Arr3 :=
  ⟨img.dtype, img.d0, img.d1, 3, img.at3⟩

/-- Model of `cv2.rectangle(img, (x, y), (x + w, y + h), color, -1)`: fill
the axis-aligned rectangle between the two corner points (both inclusive,
points given as `(column, row)`) with the color, whose three given components
fill channels 0–2 and whose unspecified components are 0.  OpenCV drawing
functions support at most 4 channels; more raise an error. -/
def cv2_rectangle (img : Arr3) (x y w h : Nat) (color : Nat × Nat × Nat) :
    Option Arr3 :=
  if 4 < img.d2 then none
  else some ⟨img.dtype, img.d0, img.d1, img.d2,
    fun i j k =>
      if y ≤ i ∧ i ≤ y + h ∧ x ≤ j ∧ j ≤ x + w then
        (if k = 0 then (color.1 : ℚ) else if k = 1 then (color.2.1 : ℚ)
         else if k = 2 then (color.2.2 : ℚ) else 0)
      else img.at3 i j k⟩

/-- Model of `cv2.addWeighted(src1, a, src2, b, 0)`: the pixelwise blend
`a * src1 + b * src2` (the exact rational value; the `uint8` saturation does
not matter for the claims about shape and channel count). -/
def cv2_addWeighted (a : ℚ) (src1 : Arr3) (b : ℚ) (src2 : Arr3) : Arr3 :=
  ⟨src1.dtype, src1.d0, src1.d1, src1.d2,
   fun i j k => a * src1.at3 i j k + b * src2.at3 i j k⟩

/-- Model of `TransparentOverlay.apply`: remember the original channel count,
promote a sub-4-channel image to BGRA, draw the filled rectangle on a copy,
alpha-blend copy and image, and convert back to 3 channels when the channel
count changed. -/
def TransparentOverlay.apply (alpha : ℚ) (img : Arr3) (x y height width : Nat)
    (color : Nat × Nat × Nat) : Option Arr3 :=
  (if img.d2 < 4 then cvtColor_BGR2BGRA img else some img).bind fun img4 =>
    (cv2_rectangle img4 x y width height color).map fun overlay =>
      let blended := cv2_addWeighted alpha overlay (1 - alpha) img4
      if img.d2 ≠ blended.d2 then cvtColor_BGRA2BGR blended else blended

/-- The image-dependent parameters of the transparent overlay. -/
structure OverlayParams where
  x : Nat
  y : Nat
  rectWidth : Nat
  rectHeight : Nat
  color : Nat × Nat × Nat

/-- Model of `TransparentOverlay.get_params_dependent_on_targets`: compute
`max_height = int(height * max_height_ratio)` and
`max_width = int(width * max_width_ratio)`, then draw the rectangle position
with `np.random.randint(0, max(width - max_width, 1))` and
`np.random.randint(0, max(height - max_height, 1))`, the rectangle size with
`np.random.randint(0, max_width)` and `np.random.randint(0, max_height)`
(which raise on an empty range), and three color components with
`np.random.randint(0, 256)`. -/
def TransparentOverlay.get_params (maxHeightRatio maxWidthRatio : ℚ) (img : Arr3)
    (st : RandState) : Option (OverlayParams × RandState) :=
  let height := img.d0
  let width := img.d1
  let maxHeight := Int.toNat ⌊(height : ℚ) * maxHeightRatio⌋
  let maxWidth := Int.toNat ⌊(width : ℚ) * maxWidthRatio⌋
  (npRandint 0 (max (width - maxWidth) 1) st).bind fun rx =>
    (npRandint 0 (max (height - maxHeight) 1) rx.2).bind fun ry =>
      (npRandint 0 maxWidth ry.2).bind fun rw =>
        (npRandint 0 maxHeight rw.2).bind fun rh =>
          (npRandint 0 256 rh.2).bind fun c1 =>
            (npRandint 0 256 c1.2).bind fun c2 =>
              (npRandint 0 256 c2.2).map fun c3 =>
                (⟨rx.1, ry.1, rw.1, rh.1, (c1.1, c2.1, c3.1)⟩, c3.2)

/-- A concrete 1×1 single-channel image. -/
def overlayImg1c : Arr3 := ⟨DType.uint8, 1, 1, 1, fun _ _ _ => 3⟩

/-- C3 counterexample: on a single-channel input the overlay does not return
an image of the same channel count — `cv2.cvtColor(img, COLOR_BGR2BGRA)`
raises, because the conversion requires a 3-channel input. -/
theorem transparent_overlay_single_channel_raises :
    TransparentOverlay.apply (2 / 5) overlayImg1c 0 0 0 0 (0, 0, 0) = none := rfl

/-- C3 amended: for every input image with exactly 3 or exactly 4 channels —
the counts OpenCV's conversion and drawing accept on the code's path — the
overlay returns an image with the same channel count as the input, via an
intermediate 4-channel representation; other channel counts raise. -/
theorem transparent_overlay_preserves_channels (alpha : ℚ) (img : Arr3)
    (x y height width : Nat) (color : Nat × Nat × Nat)
    (hc : img.d2 = 3 ∨ img.d2 = 4) :
    ∃ out, TransparentOverlay.apply alpha img x y height width color = some out
      ∧ out.d2 = img.d2 := by
  rcases hc with h3 | h4
  · refine ⟨cvtColor_BGRA2BGR
      (cv2_addWeighted alpha
        ⟨img.dtype, img.d0, img.d1, 4,
          fun i j k =>
            if y ≤ i ∧ i ≤ y + height ∧ x ≤ j ∧ j ≤ x + width then
              (if k = 0 then (color.1 : ℚ) else if k = 1 then (color.2.1 : ℚ)
               else if k = 2 then (color.2.2 : ℚ) else 0)
            else if k = 3 then 255 else img.at3 i j k⟩
        (1 - alpha)
        ⟨img.dtype, img.d0, img.d1, 4,
          fun i j k => if k = 3 then 255 else img.at3 i j k⟩), ?_, ?_⟩
    · simp [TransparentOverlay.apply, cvtColor_BGR2BGRA, cv2_rectangle,
        cv2_addWeighted, h3]
    · exact h3.symm
  · refine ⟨cv2_addWeighted alpha
      ⟨img.dtype, img.d0, img.d1, img.d2,
        fun i j k =>
          if y ≤ i ∧ i ≤ y + height ∧ x ≤ j ∧ j ≤ x + width then
            (if k = 0 then (color.1 : ℚ) else if k = 1 then (color.2.1 : ℚ)
             else if k = 2 then (color.2.2 : ℚ) else 0)
          else img.at3 i j k⟩
      (1 - alpha) img, ?_, ?_⟩
    · simp [TransparentOverlay.apply, cv2_rectangle, cv2_addWeighted, h4]
    · simp [cv2_addWeighted, h4]

/-- A concrete 2×2 RGB image for the overlay witness. -/
def overlayImg3c : Arr3 := ⟨DType.uint8, 2, 2, 3, fun _ _ _ => 10⟩

/-- Witness for the amended C3 at a concrete input: on a 2×2×3 image the
overlay succeeds and keeps 3 channels. -/
theorem transparent_overlay_preserves_channels_witness :
    ∃ out, TransparentOverlay.apply (2 / 5) overlayImg3c 0 0 1 1 (7, 7, 7) = some out
      ∧ out.d2 = overlayImg3c.d2 :=
  transparent_overlay_preserves_channels (2 / 5) overlayImg3c 0 0 1 1 (7, 7, 7)
    (Or.inl rfl)

/-- C9: for every image whose width times the configured
`max_width_ratio = 0.1` truncates to 0 — any width from 0 through 9 — the
overlay's parameter sampling raises: `np.random.randint(0, max_width)` is
called with an empty range. -/
theorem transparent_overlay_get_params_raises (img : Arr3) (st : RandState)
    (hw : img.d1 < 10) :
    TransparentOverlay.get_params 1 (1 / 10) img st = none := by
  have hmw : Int.toNat ⌊(img.d1 : ℚ) * (1 / 10)⌋ = 0 := by
    have hfl : ⌊(img.d1 : ℚ) * (1 / 10)⌋ = 0 := by
      rw [Int.floor_eq_zero_iff]
      have hq : (img.d1 : ℚ) < 10 := by exact_mod_cast hw
      constructor
      · positivity
      · linarith
    rw [hfl]
    rfl
  have hne : ∀ a : Nat, ¬ (max a 1 ≤ 0) := by
    intro a h
    exact absurd (Nat.max_le.mp h).2 (by omega)
  rw [TransparentOverlay.get_params]
  simp only [hmw, npRandint]
  simp [hne]

/-- A concrete 4×9 RGB image: wide enough to be a real image, its width
strictly below 10. -/
def overlayImgW9 : Arr3 := ⟨DType.uint8, 4, 9, 3, fun _ _ _ => 20⟩

/-- Witness for C9 at a concrete input: on a 4×9×3 image the configured
overlay's parameter sampling raises. -/
theorem transparent_overlay_get_params_raises_witness :
    TransparentOverlay.get_params 1 (1 / 10) overlayImgW9 zeroState = none :=
  transparent_overlay_get_params_raises overlayImgW9 zeroState (by norm_num [overlayImgW9])

/-- One entry of an albumentations `Compose` pipeline: a name, an apply
probability, the `always_apply` flag, and the transform's action on an image
and the random state. -/
structure Step where
  name : String
  p : ℚ
  alwaysApply : Bool
  run : Arr3 → RandState → Option (Arr3 × RandState)

/-- Gating of one pipeline entry, as in the albumentations base class: apply
unconditionally when `always_apply` is set (no draw is consumed), otherwise
consume one `random.random()` draw and apply exactly when it is below `p`. -/
def runStep (s : Step) (img : Arr3) (st : RandState) : Option (Arr3 × RandState) :=
  if s.alwaysApply then s.run img st
  else if (pyUniform st).1 < s.p then s.run img (pyUniform st).2
  else some (img, (pyUniform st).2)

/-- Model of `albumentations.Compose`: evaluate the gating probabilities in
list order, feeding each applied transform's output to the next entry. -/
def composeRun : List Step → Arr3 → RandState → Option (Arr3 × RandState)
  | [], img, st => some (img, st)
  | s :: rest, img, st => (runStep s img st).bind fun r => composeRun rest r.1 r.2

/-- Model of the third-party `alb.ShiftScaleRotate` with the source's
parameters (`shift_limit=0`, white border fill): sample the scale factor in
`1 + [scale_lo, scale_hi]` and the rotation angle in `[-limit, limit]` from
the `random`-module stream; the pixel-level resampling is modelled as a
nearest-neighbour remap by the sampled parameters with out-of-range
coordinates taking the fill value. -/
def ShiftScaleRotate.run (scaleLo scaleHi rotateLimit fill : ℚ) (img : Arr3)
    (st : RandState) : Option (Arr3 × RandState) :=
  let u1 := (pyUniform st).1
  let st1 := (pyUniform st).2
  let u2 := (pyUniform st1).1
  let st2 := (pyUniform st1).2
  let scale := 1 + (scaleLo + u1 * (scaleHi - scaleLo))
  let angle := -rotateLimit + u2 * (2 * rotateLimit)
  some (⟨img.dtype, img.d0, img.d1, img.d2, fun i j k =>
    let si := Int.toNat ⌊(i : ℚ) / scale⌋
    let sj := Int.toNat ⌊(j : ℚ) / scale + angle⌋
    if si < img.d0 ∧ sj < img.d1 then img.at3 si sj k else fill⟩, st2)

/-- Model of the third-party `alb.GridDistortion` (`distort_limit=0.1`,
white border fill): sample the distortion in `[-limit, limit]` and remap
columns by the sampled factor, filling out-of-range coordinates. -/
def GridDistortion.run (distortLimit fill : ℚ) (img : Arr3) (st : RandState) :
    Option (Arr3 × RandState) :=
  let u := (pyUniform st).1
  let st1 := (pyUniform st).2
  let d := -distortLimit + u * (2 * distortLimit)
  some (⟨img.dtype, img.d0, img.d1, img.d2, fun i j k =>
    let sj := Int.toNat ⌊(j : ℚ) * (1 + d)⌋
    if sj < img.d1 then img.at3 i sj k else fill⟩, st1)

/-- Model of the third-party `alb.GaussNoise` (`var_limit=10`): sample the
noise variance from the `random`-module stream and per-pixel noise values
from the NumPy global stream, mapped into `[-1, 1]` and scaled. -/
def GaussNoise.run (varLimit : ℚ) (img : Arr3) (st : RandState) :
    Option (Arr3 × RandState) :=
  let u := (pyUniform st).1
  let st1 := (pyUniform st).2
  let out : Arr3 := ⟨img.dtype, img.d0, img.d1, img.d2, fun i j k =>
    img.at3 i j k + u * varLimit *
      ((((st1.npr (st1.npPos + ((i * img.d1 + j) * img.d2 + k))) % 201 : Nat) : ℚ) - 100) / 100⟩
  some (out, npAdvance (img.d0 * img.d1 * img.d2) st1)

/-- Model of the third-party `alb.RandomBrightnessContrast`
(`brightness_limit=0.05`, `contrast_limit=(-0.2, 0)`, `brightness_by_max`):
sample brightness and contrast shifts and apply the affine pixel map. -/
def RandomBrightnessContrast.run (bLimit cLo cHi : ℚ) (img : Arr3) (st : RandState) :
    Option (Arr3 × RandState) :=
  let u1 := (pyUniform st).1
  let st1 := (pyUniform st).2
  let u2 := (pyUniform st1).1
  let st2 := (pyUniform st1).2
  let beta := -bLimit + u1 * (2 * bLimit)
  let cc := cLo + u2 * (cHi - cLo)
  some (⟨img.dtype, img.d0, img.d1, img.d2,
    fun i j k => (1 + cc) * img.at3 i j k + beta * 255⟩, st2)

/-- Model of the third-party `alb.ImageCompression` (`quality_lower=95`):
sample the quality with `randint(quality_lower, 100)` and model the artifact
as the quantization of each sample value by the sampled quality. -/
def ImageCompression.run (qualityLower : Nat) (img : Arr3) (st : RandState) :
    Option (Arr3 × RandState) :=
  let q := (pyRandint qualityLower 100 st).1
  let st1 := (pyRandint qualityLower 100 st).2
  some (⟨img.dtype, img.d0, img.d1, img.d2,
    fun i j k => ((⌊img.at3 i j k * (q : ℚ) / 100⌋ : ℤ) : ℚ) * 100 / (q : ℚ)⟩, st1)

/-- Model of the third-party `alb.Emboss` (`alpha=(0.2, 0.5)`,
`strength=(0.2, 0.7)`): sample the two parameters and blend each pixel with
an embossing term against its up-left neighbour. -/
def Emboss.run (aLo aHi sLo sHi : ℚ) (img : Arr3) (st : RandState) :
    Option (Arr3 × RandState) :=
  let u1 := (pyUniform st).1
  let st1 := (pyUniform st).2
  let u2 := (pyUniform st1).1
  let st2 := (pyUniform st1).2
  let a := aLo + u1 * (aHi - aLo)
  let s := sLo + u2 * (sHi - sLo)
  some (⟨img.dtype, img.d0, img.d1, img.d2,
    fun i j k => (1 - a) * img.at3 i j k
      + a * (img.at3 i j k + s * (img.at3 i j k - img.at3 (i - 1) (j - 1) k))⟩, st2)

/-- Model of the third-party `alb.OpticalDistortion`
(`distort_limit=(-0.05, 0.05)`, `shift_limit=(-0.05, 0.05)`, zero fill):
sample the distortion and shift and remap columns, filling out-of-range
coordinates with the configured fill value 0. -/
def OpticalDistortion.run (limit fill : ℚ) (img : Arr3) (st : RandState) :
    Option (Arr3 × RandState) :=
  let u1 := (pyUniform st).1
  let st1 := (pyUniform st).2
  let u2 := (pyUniform st1).1
  let st2 := (pyUniform st1).2
  let d := -limit + u1 * (2 * limit)
  let sh := -limit + u2 * (2 * limit)
  some (⟨img.dtype, img.d0, img.d1, img.d2, fun i j k =>
    let sj := Int.toNat ⌊(j : ℚ) + sh * (img.d1 : ℚ) + d * (j : ℚ)⌋
    if sj < img.d1 then img.at3 i sj k else fill⟩, st2)

/-- Model of the third-party `alb.Sharpen` (`alpha=(0.2, 0.5)`,
`lightness=(0.5, 1.0)`): sample the two parameters and blend each pixel with
a sharpening term against its right neighbour. -/
def Sharpen.run (aLo aHi lLo lHi : ℚ) (img : Arr3) (st : RandState) :
    Option (Arr3 × RandState) :=
  let u1 := (pyUniform st).1
  let st1 := (pyUniform st).2
  let u2 := (pyUniform st1).1
  let st2 := (pyUniform st1).2
  let a := aLo + u1 * (aHi - aLo)
  let l := lLo + u2 * (lHi - lLo)
  some (⟨img.dtype, img.d0, img.d1, img.d2,
    fun i j k => (1 - a) * img.at3 i j k
      + a * (l * img.at3 i j k + (img.at3 i j k - img.at3 i (j + 1) k))⟩, st2)

/-- Model of the third-party `alb.ElasticTransform` (`alpha=0.15`,
`sigma=10.07`, `alpha_affine=0.15`, white fill): the library seeds its
displacement field from `random.randint(0, 10000)`; the field is modelled as
a small row displacement derived from that seed, filling out-of-range
coordinates. -/
def ElasticTransform.run (fill : ℚ) (img : Arr3) (st : RandState) :
    Option (Arr3 × RandState) :=
  let t := (pyRandint 0 10000 st).1
  let st1 := (pyRandint 0 10000 st).2
  let di := t % 2
  some (⟨img.dtype, img.d0, img.d1, img.d2, fun i j k =>
    if i + di < img.d0 then img.at3 (i + di) j k else fill⟩, st1)

/-- Model of the third-party `alb.InvertImg` on `uint8` samples: each value
`v` becomes `255 - v`. -/
def InvertImg.run (img : Arr3) (st : RandState) : Option (Arr3 × RandState) :=
  some (⟨img.dtype, img.d0, img.d1, img.d2,
    fun i j k => 255 - img.at3 i j k⟩, st)

/-- Full action of `TransparentOverlay` inside the pipeline: sample the
image-dependent parameters from the NumPy global stream, then apply the
overlay with them. -/
def TransparentOverlay.run (maxHeightRatio maxWidthRatio alpha : ℚ) (img : Arr3)
    (st : RandState) : Option (Arr3 × RandState) :=
  (TransparentOverlay.get_params maxHeightRatio maxWidthRatio img st).bind fun pr =>
    (TransparentOverlay.apply alpha img pr.1.x pr.1.y pr.1.rectHeight pr.1.rectWidth
       pr.1.color).map fun out => (out, pr.2)

/-- The inner `ShiftScaleRotate` entry: `scale_limit=(-0.15, 0)`,
`rotate_limit=1`, white fill, `p=1`. -/
def shiftScaleRotateStep : Step :=
  ⟨"ShiftScaleRotate", 1, false, ShiftScaleRotate.run (-(3 / 20)) 0 1 255⟩

/-- The inner `GridDistortion` entry: `distort_limit=0.1`, white fill,
`p=0.5`. -/
def gridDistortionStep : Step :=
  ⟨"GridDistortion", 1 / 2, false, GridDistortion.run (1 / 10) 255⟩

/-- The nested `alb.Compose` group gated at `p=0.15`. -/
def composeGroupStep : Step :=
  ⟨"Compose", 3 / 20, false,
   fun img st => composeRun [shiftScaleRotateStep, gridDistortionStep] img st⟩

/-- `GaussNoise(10, p=0.2)`. -/
def gaussNoiseStep : Step := ⟨"GaussNoise", 1 / 5, false, GaussNoise.run 10⟩

/-- `RandomBrightnessContrast(0.05, (-0.2, 0), True, p=0.2)`. -/
def randomBrightnessContrastStep : Step :=
  ⟨"RandomBrightnessContrast", 1 / 5, false,
   RandomBrightnessContrast.run (1 / 20) (-(1 / 5)) 0⟩

/-- `ImageCompression(95, p=0.3)`. -/
def imageCompressionStep : Step :=
  ⟨"ImageCompression", 3 / 10, false, ImageCompression.run 95⟩

/-- `TransparentOverlay(1.0, 0.1, alpha=0.4, p=0.2)`. -/
def transparentOverlayStep : Step :=
  ⟨"TransparentOverlay", 1 / 5, false, TransparentOverlay.run 1 (1 / 10) (2 / 5)⟩

/-- `Emboss(p=0.3, alpha=(0.2, 0.5), strength=(0.2, 0.7))`. -/
def embossStep : Step :=
  ⟨"Emboss", 3 / 10, false, Emboss.run (1 / 5) (1 / 2) (1 / 5) (7 / 10)⟩

/-- `OpticalDistortion(p=0.2, distort_limit=±0.05, shift_limit=±0.05,
value=(0, 0, 0))`. -/
def opticalDistortionStep : Step :=
  ⟨"OpticalDistortion", 1 / 5, false, OpticalDistortion.run (1 / 20) 0⟩

/-- `Sharpen(p=0.3, alpha=(0.2, 0.5), lightness=(0.5, 1.0))`. -/
def sharpenStep : Step :=
  ⟨"Sharpen", 3 / 10, false, Sharpen.run (1 / 5) (1 / 2) (1 / 2) 1⟩

/-- `ElasticTransform(p=0.3, value=(255, 255, 255))`. -/
def elasticTransformStep : Step :=
  ⟨"ElasticTransform", 3 / 10, false, ElasticTransform.run 255⟩

/-- `RandomStretchAug(min_ratio=0.5, max_ratio=1.5, p=0.2)`. -/
def randomStretchAugStep : Step :=
  ⟨"RandomStretchAug", 1 / 5, false,
   fun img st => some (RandomStretchAug.apply (1 / 2) (3 / 2) img st)⟩

/-- `InvertImg(p=0.3)`. -/
def invertImgStep : Step := ⟨"InvertImg", 3 / 10, false, InvertImg.run⟩

/-- `ToSingleChannelGray(always_apply=True)`. -/
def toSingleChannelGrayStep : Step :=
  ⟨"ToSingleChannelGray", 1, true,
   fun img st => (ToSingleChannelGray.apply img).map fun g => (g, st)⟩

/-- `CustomNormalize(always_apply=True)`. -/
def customNormalizeStep : Step :=
  ⟨"CustomNormalize", 1, true,
   fun img st => some (CustomNormalize.apply img, st)⟩

/-- The training pipeline `_train_alb_transform` with the fixed parameter
table of the source. -/
def _train_alb_transform : List Step :=
  [composeGroupStep, gaussNoiseStep, randomBrightnessContrastStep,
   imageCompressionStep, transparentOverlayStep, embossStep,
   opticalDistortionStep, sharpenStep, elasticTransformStep,
   randomStretchAugStep, invertImgStep, toSingleChannelGrayStep,
   customNormalizeStep]

/-- The test-time pipeline `_test_alb_transform`: grayscale reduction then
normalization only. -/
def _test_alb_transform : List Step :=
  [toSingleChannelGrayStep, customNormalizeStep]

/-- The luma weighting maps `[0, 255]` samples to `[0, 255]`. -/
theorem rgb2grayPixel_bounds (r g b : ℚ)
    (hr : 0 ≤ r ∧ r ≤ 255) (hg : 0 ≤ g ∧ g ≤ 255) (hb : 0 ≤ b ∧ b ≤ 255) :
    0 ≤ rgb2grayPixel r g b ∧ rgb2grayPixel r g b ≤ 255 := by
  rw [rgb2grayPixel]
  constructor <;> [linarith [hr.1, hg.1, hb.1]; linarith [hr.2, hg.2, hb.2]]

/-- Running the two-entry test pipeline on any state is the successful
grayscale step followed by normalization, with the random state untouched. -/
theorem composeRun_test_eq (img : Arr3) (st : RandState) (g : Arr3)
    (hg : ToSingleChannelGray.apply img = some g) :
    composeRun _test_alb_transform img st = some (CustomNormalize.apply g, st) := by
  simp [_test_alb_transform, composeRun, runStep, toSingleChannelGrayStep,
    customNormalizeStep, hg]

/-- C1: for every well-formed input image (a channel count OpenCV's
grayscale conversion accepts and raw samples in `[0, 255]`) and every random
state, the test pipeline is exactly the grayscale stage followed by the
normalization stage, consumes no randomness (the output is the same for every
state), and its output has exactly one channel with values in the
normalizer's output range `[0, 1]`. -/
theorem test_pipeline_single_channel_unit_range (img : Arr3)
    (hc : img.d2 = 1 ∨ img.d2 = 3 ∨ img.d2 = 4)
    (hpix : ∀ i < img.d0, ∀ j < img.d1, ∀ k < img.d2,
      0 ≤ img.at3 i j k ∧ img.at3 i j k ≤ 255) :
    ∀ st : RandState, ∃ g, ToSingleChannelGray.apply img = some g
      ∧ composeRun _test_alb_transform img st = some (CustomNormalize.apply g, st)
      ∧ (CustomNormalize.apply g).d2 = 1
      ∧ ∀ i < (CustomNormalize.apply g).d0, ∀ j < (CustomNormalize.apply g).d1,
          0 ≤ (CustomNormalize.apply g).at3 i j 0
            ∧ (CustomNormalize.apply g).at3 i j 0 ≤ 1 := by
  intro st
  by_cases h1 : img.d2 = 1
  · have hg : ToSingleChannelGray.apply img = some img := by
      simp [ToSingleChannelGray.apply, h1]
    refine ⟨img, hg, composeRun_test_eq img st img hg, h1, ?_⟩
    intro i hi j hj
    have hb := hpix i hi j hj 0 (by omega)
    show 0 ≤ img.at3 i j 0 / 255 ∧ img.at3 i j 0 / 255 ≤ 1
    constructor <;> linarith [hb.1, hb.2]
  · have h34 : img.d2 = 3 ∨ img.d2 = 4 := by
      rcases hc with h | h | h
      · exact absurd h h1
      · exact Or.inl h
      · exact Or.inr h
    have hg : ToSingleChannelGray.apply img
        = some ⟨img.dtype, img.d0, img.d1, 1,
            fun i j _ => rgb2grayPixel (img.at3 i j 0) (img.at3 i j 1) (img.at3 i j 2)⟩ := by
      simp [ToSingleChannelGray.apply, h1, h34]
    refine ⟨_, hg, composeRun_test_eq img st _ hg, rfl, ?_⟩
    intro i hi j hj
    have hb0 := hpix i hi j hj 0 (by omega)
    have hb1 := hpix i hi j hj 1 (by omega)
    have hb2 := hpix i hi j hj 2 (by omega)
    have hl := rgb2grayPixel_bounds (img.at3 i j 0) (img.at3 i j 1) (img.at3 i j 2)
      hb0 hb1 hb2
    show 0 ≤ rgb2grayPixel (img.at3 i j 0) (img.at3 i j 1) (img.at3 i j 2) / 255
      ∧ rgb2grayPixel (img.at3 i j 0) (img.at3 i j 1) (img.at3 i j 2) / 255 ≤ 1
    constructor <;> linarith [hl.1, hl.2]

/-- A concrete well-formed 2×2 RGB image of constant value 128. -/
def testImg128 : Arr3 := ⟨DType.uint8, 2, 2, 3, fun _ _ _ => 128⟩

/-- Witness for C1 at a concrete input: the 2×2×3 constant-128 image on the
all-zeros random state. -/
theorem test_pipeline_single_channel_unit_range_witness :
    ∃ g, ToSingleChannelGray.apply testImg128 = some g
      ∧ composeRun _test_alb_transform testImg128 zeroState
          = some (CustomNormalize.apply g, zeroState)
      ∧ (CustomNormalize.apply g).d2 = 1
      ∧ ∀ i < (CustomNormalize.apply g).d0, ∀ j < (CustomNormalize.apply g).d1,
          0 ≤ (CustomNormalize.apply g).at3 i j 0
            ∧ (CustomNormalize.apply g).at3 i j 0 ≤ 1 :=
  test_pipeline_single_channel_unit_range testImg128 (Or.inr (Or.inl rfl))
    (fun _ _ _ _ _ _ => by norm_num [testImg128]) zeroState

/-- A `random`-module stream that fails every gate except the transparent
overlay's (the fifth gate draw, index 4, is 0; all others are 9/10). -/
def overlayGatePy : Nat → ℚ := fun n => if n = 4 then 0 else 9 / 10

/-- An all-zeros NumPy stream. -/
def npZerosStream : Nat → Nat := fun _ => 0

/-- A NumPy stream drawing 0 for the overlay rectangle and 255 for its
color. -/
def npLateColorStream : Nat → Nat := fun n => if n < 4 then 0 else 255

/-- A concrete all-black 1×10 RGB training image. -/
def trainImgC8 : Arr3 := ⟨DType.uint8, 1, 10, 3, fun _ _ _ => 0⟩

/-- A full random state with the overlay-only `random`-module stream and the
all-zeros NumPy stream. -/
def stTrainA : RandState := ⟨overlayGatePy, 0, npZerosStream, 0⟩

/-- The same `random`-module stream as `stTrainA`, but a NumPy stream that
draws a white overlay color. -/
def stTrainB : RandState := ⟨overlayGatePy, 0, npLateColorStream, 0⟩

/-- C8 counterexample: two runs of the training pipeline on the same image
whose `random`-module streams agree — the state a single `random.seed` call
fixes — can produce different output arrays, because the transparent
overlay's parameters are drawn from the NumPy global stream: with the NumPy
draws differing the pixel under the overlay rectangle differs. -/
theorem train_pipeline_single_seed_divergence :
    composeRun _train_alb_transform trainImgC8 stTrainA
      ≠ composeRun _train_alb_transform trainImgC8 stTrainB := by
  have hA : (composeRun _train_alb_transform trainImgC8 stTrainA).map
      (fun r => r.1.at3 0 0 0) = some 0 := by
    norm_num [_train_alb_transform, composeRun, runStep, pyUniform, stTrainA,
      overlayGatePy, npZerosStream, trainImgC8, composeGroupStep, gaussNoiseStep,
      randomBrightnessContrastStep, imageCompressionStep, transparentOverlayStep,
      embossStep, opticalDistortionStep, sharpenStep, elasticTransformStep,
      randomStretchAugStep, invertImgStep, toSingleChannelGrayStep,
      customNormalizeStep, TransparentOverlay.run, TransparentOverlay.get_params,
      npRandint, TransparentOverlay.apply, cvtColor_BGR2BGRA, cv2_rectangle,
      cv2_addWeighted, cvtColor_BGRA2BGR, ToSingleChannelGray.apply,
      CustomNormalize.apply, normalize_img_array, rgb2grayPixel, Option.bind]
  have hB : (composeRun _train_alb_transform trainImgC8 stTrainB).map
      (fun r => r.1.at3 0 0 0) = some (2 / 5) := by
    norm_num [_train_alb_transform, composeRun, runStep, pyUniform, stTrainB,
      overlayGatePy, npLateColorStream, trainImgC8, composeGroupStep, gaussNoiseStep,
      randomBrightnessContrastStep, imageCompressionStep, transparentOverlayStep,
      embossStep, opticalDistortionStep, sharpenStep, elasticTransformStep,
      randomStretchAugStep, invertImgStep, toSingleChannelGrayStep,
      customNormalizeStep, TransparentOverlay.run, TransparentOverlay.get_params,
      npRandint, TransparentOverlay.apply, cvtColor_BGR2BGRA, cv2_rectangle,
      cv2_addWeighted, cvtColor_BGRA2BGR, ToSingleChannelGray.apply,
      CustomNormalize.apply, normalize_img_array, rgb2grayPixel, Option.bind]
  intro h
  rw [h] at hA
  rw [hA] at hB
  norm_num at hB

/-- C8 amended: the training pipeline is deterministic once the entire
process-wide random state — both the `random`-module stream and the NumPy
global stream, with their positions — is fixed: two runs from equal states
produce identical outputs. -/
theorem train_pipeline_deterministic (img : Arr3) (s₁ s₂ : RandState)
    (hpy : s₁.py = s₂.py) (hpyPos : s₁.pyPos = s₂.pyPos)
    (hnpr : s₁.npr = s₂.npr) (hnpPos : s₁.npPos = s₂.npPos) :
    composeRun _train_alb_transform img s₁ = composeRun _train_alb_transform img s₂ := by
  have h : s₁ = s₂ := by
    cases s₁
    cases s₂
    simp_all
  rw [h]

/-- Witness for the amended C8 at a concrete input. -/
theorem train_pipeline_deterministic_witness :
    composeRun _train_alb_transform trainImgC8 stTrainA
      = composeRun _train_alb_transform trainImgC8 stTrainA :=
  train_pipeline_deterministic trainImgC8 stTrainA stTrainA rfl rfl rfl rfl

/-- A named transform of a pipeline together with its apply probability. -/
structure AugStep where
  name : String
  p : ℚ

/-- The name and probability summary of a pipeline entry. -/
def stepSummary (s : Step) : AugStep := ⟨s.name, s.p⟩

/-- Model of the torchvision transform pipeline the `train` CLI command
builds itself (`cli.py`): `RandomInvert(p=0.5)`,
`RandomRotation(degrees=2)` (always applied), `RandomAutocontrast(p=0.05)`,
then `NormalizeAug()` (always applied). -/
def cli_train_transform : List AugStep :=
  [⟨"RandomInvert", 1 / 2⟩, ⟨"RandomRotation", 1⟩,
   ⟨"RandomAutocontrast", 1 / 20⟩, ⟨"NormalizeAug", 1⟩]

/-- C10: the `train` CLI command does not use the albumentations training
pipeline of the transforms module; the pipeline it hands to the data module
is the four-entry torchvision pipeline above, which differs from the
thirteen-entry `_train_alb_transform` parameter table. -/
theorem cli_train_uses_own_pipeline :
    cli_train_transform
      = [⟨"RandomInvert", 1 / 2⟩, ⟨"RandomRotation", 1⟩,
         ⟨"RandomAutocontrast", 1 / 20⟩, ⟨"NormalizeAug", 1⟩]
    ∧ cli_train_transform ≠ List.map stepSummary _train_alb_transform := by
  refine ⟨rfl, ?_⟩
  intro h
  have hlen := congrArg List.length h
  simp [cli_train_transform, _train_alb_transform] at hlen
